import Mathlib

/-!
Verification development for the PySimlink metadata container header
(`src/pysimlink/c_files/include/containers.hpp`).

The header defines lookup-key types over the vendor mapping-info API
(`rtwCAPI_ModelMappingInfo`), together with plain aggregate records
(`DataType`, `ModelParam`, `BlockParam`, `Signal`, `ModelInfo`).  Pointers
to the externally owned mapping-info structure are compared by identity
only, so they are embedded as their address, a natural number.  The
`pair_hash` and `Compare` functors are only declared in the header (their
definitions are not part of the visible sources), so they are modelled
from the specification where noted.
-/

namespace PYSIMLINK

/-- Address of an externally owned `rtwCAPI_ModelMappingInfo` structure.
The key types store a `const rtwCAPI_ModelMappingInfo *` and compare it
with pointer identity only, so the pointer is embedded as its address. -/
abbrev MMIPtr := Nat

/-- Embedding of `class map_key_2s`: two name strings `a`, `b` and a
mapping-info handle pointer `c`. -/
structure map_key_2s where
  a : String
  b : String
  c : MMIPtr
deriving DecidableEq

/-- Embedding of `map_key_2s::operator==`:
`if(c != other.c) return false; return ((a == other.a) && (b == other.b));` -/
def map_key_2s.eq (self other : map_key_2s) : Bool :=
  if self.c ≠ other.c then false
  else (self.a == other.a) && (self.b == other.b)

/-- Embedding of `class map_key_1s`: one name string `a` and a
mapping-info handle pointer `c`. -/
structure map_key_1s where
  a : String
  c : MMIPtr
deriving DecidableEq

/-- Embedding of `map_key_1s::operator==`:
`if(c != other.c) return false; return (a == other.a);` -/
def map_key_1s.eq (self other : map_key_1s) : Bool :=
  if self.c ≠ other.c then false
  else self.a == other.a

/-- Modelled from the spec: the bodies of `pair_hash::operator()` are not in
the visible sources (`containers.hpp` only declares the functor).  The spec
requires the hash to combine the string content with the handle's identity
value.  This helper folds the hash over the characters of a string. -/
def strContentHash (s : String) : Nat :=
  s.data.foldl (fun h ch => h * 31 + ch.toNat) 7

/-- Modelled from the spec: `pair_hash::operator()(const map_key_1s&)`
combines the content hash of the name string with the handle's identity
value (its address, standing in for a stable integer ID). -/
def pair_hash_1s (p : map_key_1s) : Nat :=
  strContentHash p.a * 31 + p.c

/-- Modelled from the spec: `pair_hash::operator()(const map_key_2s&)`
combines the content hashes of both name strings with the handle's
identity value. -/
def pair_hash_2s (p : map_key_2s) : Nat :=
  (strContentHash p.a * 31 + strContentHash p.b) * 31 + p.c

/-- Lexicographic comparison of character sequences by code point, the
semantics of `operator<` on `std::string`. -/
def charListLtb : List Char → List Char → Bool
  | _, [] => false
  | [], _ :: _ => true
  | c1 :: t1, c2 :: t2 =>
    if c1.toNat < c2.toNat then true
    else if c2.toNat < c1.toNat then false
    else charListLtb t1 t2

/-- Lexicographic `operator<` on strings, over their character data. -/
def strLtb (s t : String) : Bool :=
  charListLtb s.data t.data

/-- Modelled from the spec: `Compare::operator()(const map_key_1s&, const
map_key_1s&)` is not in the visible sources; the spec requires a strict
weak ordering, lexicographic over the same fields as equality: the handle
identity, then the name string. -/
def Compare_1s (lhs rhs : map_key_1s) : Bool :=
  if lhs.c ≠ rhs.c then decide (lhs.c < rhs.c)
  else strLtb lhs.a rhs.a

/-- Modelled from the spec: `Compare::operator()(const map_key_2s&, const
map_key_2s&)`, lexicographic over the handle identity and the two name
strings. -/
def Compare_2s (lhs rhs : map_key_2s) : Bool :=
  if lhs.c ≠ rhs.c then decide (lhs.c < rhs.c)
  else if strLtb lhs.a rhs.a then true
  else if strLtb rhs.a lhs.a then false
  else strLtb lhs.b rhs.b

/-- Embedding of a call `self == other` on `map_key_1s` with explicit
operand state passing: each `return` of the `const` member function yields
the result together with the state of both operands at that point. -/
def map_key_1s.eqCall (self other : map_key_1s) : Bool × map_key_1s × map_key_1s :=
  if self.c ≠ other.c then (false, self, other)
  else (self.a == other.a, self, other)

/-- Embedding of a call `self == other` on `map_key_2s` with explicit
operand state passing. -/
def map_key_2s.eqCall (self other : map_key_2s) : Bool × map_key_2s × map_key_2s :=
  if self.c ≠ other.c then (false, self, other)
  else ((self.a == other.a) && (self.b == other.b), self, other)

/-- Embedding of `enum rtwCAPI_Orientation` from the vendor mapping API
(`rtw_modelmap.h`), the fixed externally defined set of layout tags the
spec describes. -/
inductive rtwCAPI_Orientation where
  | rtwCAPI_SCALAR
  | rtwCAPI_VECTOR
  | rtwCAPI_MATRIX_ROW_MAJOR
  | rtwCAPI_MATRIX_COL_MAJOR
  | rtwCAPI_MATRIX_COL_MAJOR_ND
deriving DecidableEq

/-- Embedding of `struct DataType`: C type name, Python type name, the
dimension sizes (`std::vector<ssize_t>`), and the orientation tag. -/
structure DataType where
  cDataType : String
  pythonType : String
  dims : List Int
  orientation : rtwCAPI_Orientation
deriving DecidableEq

/-- Embedding of `struct ModelParam`. -/
structure ModelParam where
  model_param : String
  data_type : DataType
deriving DecidableEq

/-- Embedding of `struct BlockParam`. -/
structure BlockParam where
  block_name : String
  block_param : String
  data_type : DataType
deriving DecidableEq

/-- Embedding of `struct Signal`. -/
structure Signal where
  block_name : String
  signal_name : String
  data_type : DataType
deriving DecidableEq

/-- Embedding of `struct ModelInfo`: the aggregate root holding the model
name and the three insertion-ordered sequences. -/
structure ModelInfo where
  model_name : String
  model_params : List ModelParam
  block_params : List BlockParam
  signals : List Signal
deriving DecidableEq

/-- Aggregate construction of a `ModelInfo` from its four components, as a
caller populates the struct's fields. -/
def ModelInfo.construct (name : String) (mps : List ModelParam)
    (bps : List BlockParam) (sigs : List Signal) : ModelInfo :=
  ⟨name, mps, bps, sigs⟩

/-- All `DataType` values reachable from a `ModelInfo` through its
`ModelParam`, `BlockParam` and `Signal` sequences. -/
def ModelInfo.reachableDataTypes (m : ModelInfo) : List DataType :=
  m.model_params.map (fun p => p.data_type) ++
  m.block_params.map (fun p => p.data_type) ++
  m.signals.map (fun p => p.data_type)

end PYSIMLINK

namespace PYSIMLINK

theorem map_key_1s_eq_iff (k1 k2 : map_key_1s) :
    map_key_1s.eq k1 k2 = true ↔ (k1.c = k2.c ∧ k1.a = k2.a) := by
  unfold map_key_1s.eq
  split
  · simp_all
  · simp_all [beq_iff_eq]

theorem map_key_2s_eq_iff (k1 k2 : map_key_2s) :
    map_key_2s.eq k1 k2 = true ↔ (k1.c = k2.c ∧ k1.a = k2.a ∧ k1.b = k2.b) := by
  unfold map_key_2s.eq
  split
  · simp_all
  · simp_all [beq_iff_eq]

/-- C1: `map_key_1s` keys compare equal exactly when their mapping-info
handle pointers are identical and their name strings are equal; in
particular, equal strings with distinct handles yield inequality. -/
theorem map_key_1s_eq_spec (k1 k2 : map_key_1s) :
    (map_key_1s.eq k1 k2 = true ↔ (k1.c = k2.c ∧ k1.a = k2.a)) ∧
    (k1.a = k2.a → k1.c ≠ k2.c → map_key_1s.eq k1 k2 = false) := by
  refine ⟨map_key_1s_eq_iff k1 k2, fun _ hc => ?_⟩
  rcases h : map_key_1s.eq k1 k2 with _ | _
  · rfl
  · exact absurd ((map_key_1s_eq_iff k1 k2).mp h).1 hc

/-- Witness for C1 at the keys from the spec example: handle 1 versus
handle 2 under the common name string. -/
theorem map_key_1s_eq_spec_witness :
    (map_key_1s.eq ⟨"signal_x", 1⟩ ⟨"signal_x", 1⟩ = true ↔
      ((1 : MMIPtr) = 1 ∧ "signal_x" = "signal_x")) ∧
    map_key_1s.eq ⟨"signal_x", 1⟩ ⟨"signal_x", 2⟩ = false := by
  refine ⟨(map_key_1s_eq_spec ⟨"signal_x", 1⟩ ⟨"signal_x", 1⟩).1, ?_⟩
  exact (map_key_1s_eq_spec ⟨"signal_x", 1⟩ ⟨"signal_x", 2⟩).2 rfl (by decide)

/-- C2: `map_key_2s` keys compare equal exactly when their mapping-info
handle pointers are identical and both name strings are equal
component-wise. -/
theorem map_key_2s_eq_spec (k1 k2 : map_key_2s) :
    map_key_2s.eq k1 k2 = true ↔ (k1.c = k2.c ∧ k1.a = k2.a ∧ k1.b = k2.b) :=
  map_key_2s_eq_iff k1 k2

/-- C3: equal keys hash equal, for both key types. -/
theorem pair_hash_consistent :
    (∀ k1 k2 : map_key_1s, map_key_1s.eq k1 k2 = true →
      pair_hash_1s k1 = pair_hash_1s k2) ∧
    (∀ k1 k2 : map_key_2s, map_key_2s.eq k1 k2 = true →
      pair_hash_2s k1 = pair_hash_2s k2) := by
  constructor
  · intro k1 k2 h
    obtain ⟨hc, ha⟩ := (map_key_1s_eq_iff k1 k2).mp h
    simp [pair_hash_1s, hc, ha]
  · intro k1 k2 h
    obtain ⟨hc, ha, hb⟩ := (map_key_2s_eq_iff k1 k2).mp h
    simp [pair_hash_2s, hc, ha, hb]

/-- Witness for C3: two structurally identical keys per key type hash
equal. -/
theorem pair_hash_consistent_witness :
    pair_hash_1s ⟨"sig", 5⟩ = pair_hash_1s ⟨"sig", 5⟩ ∧
    pair_hash_2s ⟨"blk", "prm", 5⟩ = pair_hash_2s ⟨"blk", "prm", 5⟩ :=
  ⟨pair_hash_consistent.1 ⟨"sig", 5⟩ ⟨"sig", 5⟩ (by decide),
   pair_hash_consistent.2 ⟨"blk", "prm", 5⟩ ⟨"blk", "prm", 5⟩ (by decide)⟩

/-- C4: keys with identical name strings but distinct handles never
collide under the hash, for both key types. -/
theorem pair_hash_separates_handles :
    (∀ k1 k2 : map_key_1s, k1.a = k2.a → k1.c ≠ k2.c →
      pair_hash_1s k1 ≠ pair_hash_1s k2) ∧
    (∀ k1 k2 : map_key_2s, k1.a = k2.a → k1.b = k2.b → k1.c ≠ k2.c →
      pair_hash_2s k1 ≠ pair_hash_2s k2) := by
  constructor
  · intro k1 k2 ha hc
    simp only [pair_hash_1s, ha]
    intro h
    exact hc (Nat.add_left_cancel h)
  · intro k1 k2 ha hb hc
    simp only [pair_hash_2s, ha, hb]
    intro h
    exact hc (Nat.add_left_cancel h)

/-- Witness for C4: the same name under handles 1 and 2 hashes
differently, per key type. -/
theorem pair_hash_separates_handles_witness :
    pair_hash_1s ⟨"sig", 1⟩ ≠ pair_hash_1s ⟨"sig", 2⟩ ∧
    pair_hash_2s ⟨"blk", "prm", 1⟩ ≠ pair_hash_2s ⟨"blk", "prm", 2⟩ :=
  ⟨pair_hash_separates_handles.1 ⟨"sig", 1⟩ ⟨"sig", 2⟩ rfl (by decide),
   pair_hash_separates_handles.2 ⟨"blk", "prm", 1⟩ ⟨"blk", "prm", 2⟩ rfl rfl (by decide)⟩

theorem charListLtb_irrefl : ∀ l, charListLtb l l = false
  | [] => rfl
  | c :: t => by simp [charListLtb, charListLtb_irrefl t]

theorem charListLtb_cons_iff (c1 c2 : Char) (t1 t2 : List Char) :
    charListLtb (c1 :: t1) (c2 :: t2) = true ↔
      (c1.toNat < c2.toNat ∨ (c1.toNat = c2.toNat ∧ charListLtb t1 t2 = true)) := by
  simp only [charListLtb]
  by_cases a : c1.toNat < c2.toNat
  · simp [a]
  · by_cases b : c2.toNat < c1.toNat
    · have e : ¬ c1.toNat = c2.toNat := by omega
      simp [a, b, e]
    · have e : c1.toNat = c2.toNat := by omega
      simp [a, b, e]

theorem charListLtb_trans :
    ∀ l1 l2 l3, charListLtb l1 l2 = true → charListLtb l2 l3 = true →
      charListLtb l1 l3 = true
  | _, _, [], _, h2 => by simp [charListLtb] at h2
  | [], _, _ :: _, _, _ => by simp [charListLtb]
  | _ :: _, [], _ :: _, h1, _ => by simp [charListLtb] at h1
  | c1 :: t1, c2 :: t2, c3 :: t3, h1, h2 => by
    rw [charListLtb_cons_iff] at h1 h2 ⊢
    rcases h1 with h1 | ⟨e1, h1⟩ <;> rcases h2 with h2 | ⟨e2, h2⟩
    · left; omega
    · left; omega
    · left; omega
    · exact Or.inr ⟨e1.trans e2, charListLtb_trans t1 t2 t3 h1 h2⟩

theorem charListLtb_asymm (l1 l2 : List Char) (h : charListLtb l1 l2 = true) :
    charListLtb l2 l1 = false := by
  cases h2 : charListLtb l2 l1
  · rfl
  · have h3 := charListLtb_trans l1 l2 l1 h h2
    rw [charListLtb_irrefl l1] at h3
    cases h3

theorem charListLtb_eq_of_incomp :
    ∀ l1 l2, charListLtb l1 l2 = false → charListLtb l2 l1 = false → l1 = l2
  | [], [], _, _ => rfl
  | [], _ :: _, h1, _ => by simp [charListLtb] at h1
  | _ :: _, [], _, h2 => by simp [charListLtb] at h2
  | c1 :: t1, c2 :: t2, h1, h2 => by
    have n1 : ¬ charListLtb (c1 :: t1) (c2 :: t2) = true := by simp [h1]
    have n2 : ¬ charListLtb (c2 :: t2) (c1 :: t1) = true := by simp [h2]
    rw [charListLtb_cons_iff] at n1 n2
    push_neg at n1 n2
    obtain ⟨na, nd⟩ := n1
    obtain ⟨nb, ne2⟩ := n2
    have e : c1.toNat = c2.toNat := by omega
    have hc : c1 = c2 := Char.eq_of_val_eq (UInt32.ext e)
    have ht1 : charListLtb t1 t2 = false := by
      cases hx : charListLtb t1 t2
      · rfl
      · exact absurd hx (nd e)
    have ht2 : charListLtb t2 t1 = false := by
      cases hx : charListLtb t2 t1
      · rfl
      · exact absurd hx (ne2 e.symm)
    rw [hc, charListLtb_eq_of_incomp t1 t2 ht1 ht2]

theorem strLtb_irrefl (s : String) : strLtb s s = false :=
  charListLtb_irrefl s.data

theorem strLtb_asymm {s t : String} (h : strLtb s t = true) : strLtb t s = false :=
  charListLtb_asymm s.data t.data h

theorem strLtb_trans {s t u : String} (h1 : strLtb s t = true)
    (h2 : strLtb t u = true) : strLtb s u = true :=
  charListLtb_trans s.data t.data u.data h1 h2

theorem strLtb_eq_of_incomp {s t : String} (h1 : strLtb s t = false)
    (h2 : strLtb t s = false) : s = t :=
  String.toList_inj.mp (charListLtb_eq_of_incomp s.data t.data h1 h2)

theorem Compare_1s_irrefl (k : map_key_1s) : Compare_1s k k = false := by
  simp [Compare_1s, strLtb_irrefl]

theorem Compare_1s_asymm {k1 k2 : map_key_1s} (h : Compare_1s k1 k2 = true) :
    Compare_1s k2 k1 = false := by
  unfold Compare_1s at h ⊢
  by_cases hc : k1.c = k2.c
  · have c1 : ¬ (k1.c ≠ k2.c) := by simp [hc]
    have c2 : ¬ (k2.c ≠ k1.c) := by simp [hc]
    rw [if_neg c1] at h
    rw [if_neg c2]
    exact strLtb_asymm h
  · have c2 : k2.c ≠ k1.c := fun e => hc e.symm
    rw [if_pos hc] at h
    rw [if_pos c2]
    rw [decide_eq_true_eq] at h
    rw [decide_eq_false_iff_not]
    exact Nat.lt_asymm h

theorem Compare_1s_trans {k1 k2 k3 : map_key_1s} (h1 : Compare_1s k1 k2 = true)
    (h2 : Compare_1s k2 k3 = true) : Compare_1s k1 k3 = true := by
  unfold Compare_1s at h1 h2 ⊢
  by_cases a : k1.c = k2.c <;> by_cases b : k2.c = k3.c
  · have hac : k1.c = k3.c := a.trans b
    rw [if_neg (by simp [a])] at h1
    rw [if_neg (by simp [b])] at h2
    rw [if_neg (by simp [hac])]
    exact strLtb_trans h1 h2
  · have hac : k1.c ≠ k3.c := by rw [a]; exact b
    rw [if_pos b, decide_eq_true_eq] at h2
    rw [if_pos hac, decide_eq_true_eq]
    rw [a]
    exact h2
  · have hac : k1.c ≠ k3.c := by rw [← b]; exact a
    rw [if_pos a, decide_eq_true_eq] at h1
    rw [if_pos hac, decide_eq_true_eq]
    rw [← b]
    exact h1
  · rw [if_pos a, decide_eq_true_eq] at h1
    rw [if_pos b, decide_eq_true_eq] at h2
    have h3 : k1.c < k3.c := Nat.lt_trans h1 h2
    rw [if_pos (Nat.ne_of_lt h3), decide_eq_true_eq]
    exact h3

theorem Compare_1s_incomp_iff (k1 k2 : map_key_1s) :
    (Compare_1s k1 k2 = false ∧ Compare_1s k2 k1 = false) ↔
      map_key_1s.eq k1 k2 = true := by
  constructor
  · rintro ⟨h1, h2⟩
    unfold Compare_1s at h1 h2
    by_cases hc : k1.c = k2.c
    · rw [if_neg (by simp [hc])] at h1
      rw [if_neg (by simp [hc])] at h2
      exact (map_key_1s_eq_iff k1 k2).mpr ⟨hc, strLtb_eq_of_incomp h1 h2⟩
    · have hc2 : k2.c ≠ k1.c := fun e => hc e.symm
      rw [if_pos hc, decide_eq_false_iff_not] at h1
      rw [if_pos hc2, decide_eq_false_iff_not] at h2
      exact absurd (Nat.le_antisymm (Nat.not_lt.mp h2) (Nat.not_lt.mp h1)) hc
  · intro h
    obtain ⟨hc, ha⟩ := (map_key_1s_eq_iff k1 k2).mp h
    unfold Compare_1s
    refine ⟨?_, ?_⟩
    · rw [if_neg (by simp [hc]), ha]
      exact strLtb_irrefl k2.a
    · rw [if_neg (by simp [hc]), ha]
      exact strLtb_irrefl k2.a

theorem Compare_2s_irrefl (k : map_key_2s) : Compare_2s k k = false := by
  simp [Compare_2s, strLtb_irrefl]

theorem Compare_2s_asymm {k1 k2 : map_key_2s} (h : Compare_2s k1 k2 = true) :
    Compare_2s k2 k1 = false := by
  unfold Compare_2s at h ⊢
  by_cases hc : k1.c = k2.c
  · rw [if_neg (by simp [hc])] at h
    rw [if_neg (by simp [hc])]
    cases s12 : strLtb k1.a k2.a
    · rw [if_neg (by simp [s12])] at h
      cases s21 : strLtb k2.a k1.a
      · rw [if_neg (by simp [s21])] at h
        have ha : k1.a = k2.a := strLtb_eq_of_incomp s12 s21
        rw [if_neg (by simp [s21]), if_neg (by simp [s12])]
        exact strLtb_asymm h
      · rw [if_pos s21] at h
        cases h
    · rw [if_pos s12] at h
      have s21 : strLtb k2.a k1.a = false := strLtb_asymm s12
      rw [if_neg (by simp [s21]), if_pos rfl]
  · have hc2 : k2.c ≠ k1.c := fun e => hc e.symm
    rw [if_pos hc, decide_eq_true_eq] at h
    rw [if_pos hc2, decide_eq_false_iff_not]
    exact Nat.lt_asymm h

theorem Compare_2s_trans {k1 k2 k3 : map_key_2s} (h1 : Compare_2s k1 k2 = true)
    (h2 : Compare_2s k2 k3 = true) : Compare_2s k1 k3 = true := by
  unfold Compare_2s at h1 h2 ⊢
  by_cases a : k1.c = k2.c <;> by_cases b : k2.c = k3.c
  · have hac : k1.c = k3.c := a.trans b
    rw [if_neg (by simp [a])] at h1
    rw [if_neg (by simp [b])] at h2
    rw [if_neg (by simp [hac])]
    cases s12 : strLtb k1.a k2.a
    · rw [if_neg (by simp [s12])] at h1
      cases s21 : strLtb k2.a k1.a
      · have ha : k1.a = k2.a := strLtb_eq_of_incomp s12 s21
        rw [if_neg (by simp [s21])] at h1
        cases s23 : strLtb k2.a k3.a
        · rw [if_neg (by simp [s23])] at h2
          cases s32 : strLtb k3.a k2.a
          · have ha2 : k2.a = k3.a := strLtb_eq_of_incomp s23 s32
            rw [if_neg (by simp [s32])] at h2
            rw [if_neg (by simp [ha, ha2, strLtb_irrefl]),
              if_neg (by simp [ha, ha2, strLtb_irrefl])]
            exact strLtb_trans h1 h2
          · rw [if_pos s32] at h2
            cases h2
        · rw [if_pos s23] at h2
          rw [ha, if_pos s23]
      · rw [if_pos s21] at h1
        cases h1
    · rw [if_pos s12] at h1
      cases s23 : strLtb k2.a k3.a
      · rw [if_neg (by simp [s23])] at h2
        cases s32 : strLtb k3.a k2.a
        · have ha2 : k2.a = k3.a := strLtb_eq_of_incomp s23 s32
          rw [← ha2, if_pos s12]
        · rw [if_pos s32] at h2
          cases h2
      · rw [if_pos (strLtb_trans s12 s23)]
  · have hac : k1.c ≠ k3.c := by rw [a]; exact b
    rw [if_pos b, decide_eq_true_eq] at h2
    rw [if_pos hac, decide_eq_true_eq, a]
    exact h2
  · have hac : k1.c ≠ k3.c := by rw [← b]; exact a
    rw [if_pos a, decide_eq_true_eq] at h1
    rw [if_pos hac, decide_eq_true_eq, ← b]
    exact h1
  · rw [if_pos a, decide_eq_true_eq] at h1
    rw [if_pos b, decide_eq_true_eq] at h2
    have h3 : k1.c < k3.c := Nat.lt_trans h1 h2
    rw [if_pos (Nat.ne_of_lt h3), decide_eq_true_eq]
    exact h3

theorem Compare_2s_incomp_iff (k1 k2 : map_key_2s) :
    (Compare_2s k1 k2 = false ∧ Compare_2s k2 k1 = false) ↔
      map_key_2s.eq k1 k2 = true := by
  constructor
  · rintro ⟨h1, h2⟩
    unfold Compare_2s at h1 h2
    by_cases hc : k1.c = k2.c
    · rw [if_neg (by simp [hc])] at h1
      rw [if_neg (by simp [hc])] at h2
      cases s12 : strLtb k1.a k2.a
      · rw [if_neg (by simp [s12])] at h1
        cases s21 : strLtb k2.a k1.a
        · have ha : k1.a = k2.a := strLtb_eq_of_incomp s12 s21
          rw [if_neg (by simp [s21])] at h1
          rw [if_neg (by simp [s21]), if_neg (by simp [s12])] at h2
          exact (map_key_2s_eq_iff k1 k2).mpr ⟨hc, ha, strLtb_eq_of_incomp h1 h2⟩
        · rw [if_pos s21] at h2
          cases h2
      · rw [if_pos s12] at h1
        cases h1
    · have hc2 : k2.c ≠ k1.c := fun e => hc e.symm
      rw [if_pos hc, decide_eq_false_iff_not] at h1
      rw [if_pos hc2, decide_eq_false_iff_not] at h2
      exact absurd (Nat.le_antisymm (Nat.not_lt.mp h2) (Nat.not_lt.mp h1)) hc
  · intro h
    obtain ⟨hc, ha, hb⟩ := (map_key_2s_eq_iff k1 k2).mp h
    unfold Compare_2s
    refine ⟨?_, ?_⟩
    · rw [if_neg (by simp [hc]), if_neg (by simp [ha, strLtb_irrefl]),
        if_neg (by simp [ha, strLtb_irrefl]), hb]
      exact strLtb_irrefl k2.b
    · rw [if_neg (by simp [hc]), if_neg (by simp [ha, strLtb_irrefl]),
        if_neg (by simp [ha, strLtb_irrefl]), hb]
      exact strLtb_irrefl k2.b

/-- C5: for both key types the Compare functor is a strict weak ordering —
irreflexive, asymmetric, transitive — and two keys are equivalent under it
(neither orders before the other) exactly when `operator==` holds. -/
theorem Compare_strict_weak_ordering :
    ((∀ k : map_key_1s, Compare_1s k k = false) ∧
     (∀ k1 k2 : map_key_1s, Compare_1s k1 k2 = true → Compare_1s k2 k1 = false) ∧
     (∀ k1 k2 k3 : map_key_1s, Compare_1s k1 k2 = true → Compare_1s k2 k3 = true →
        Compare_1s k1 k3 = true) ∧
     (∀ k1 k2 : map_key_1s,
        (Compare_1s k1 k2 = false ∧ Compare_1s k2 k1 = false) ↔
          map_key_1s.eq k1 k2 = true)) ∧
    ((∀ k : map_key_2s, Compare_2s k k = false) ∧
     (∀ k1 k2 : map_key_2s, Compare_2s k1 k2 = true → Compare_2s k2 k1 = false) ∧
     (∀ k1 k2 k3 : map_key_2s, Compare_2s k1 k2 = true → Compare_2s k2 k3 = true →
        Compare_2s k1 k3 = true) ∧
     (∀ k1 k2 : map_key_2s,
        (Compare_2s k1 k2 = false ∧ Compare_2s k2 k1 = false) ↔
          map_key_2s.eq k1 k2 = true)) :=
  ⟨⟨Compare_1s_irrefl, fun _ _ => Compare_1s_asymm, fun _ _ _ => Compare_1s_trans,
    Compare_1s_incomp_iff⟩,
   ⟨Compare_2s_irrefl, fun _ _ => Compare_2s_asymm, fun _ _ _ => Compare_2s_trans,
    Compare_2s_incomp_iff⟩⟩

/-- Witness for C5: asymmetry applied at concrete keys of each type. -/
theorem Compare_strict_weak_ordering_witness :
    Compare_1s ⟨"y", 1⟩ ⟨"x", 1⟩ = false ∧
    Compare_2s ⟨"x", "v", 2⟩ ⟨"x", "u", 2⟩ = false :=
  ⟨Compare_strict_weak_ordering.1.2.1 ⟨"x", 1⟩ ⟨"y", 1⟩ (by decide),
   Compare_strict_weak_ordering.2.2.1 ⟨"x", "u", 2⟩ ⟨"x", "v", 2⟩ (by decide)⟩

/-- C6: a `ModelInfo` built from a fixed name and fixed sequences reads
back exactly the supplied sequences, element for element, in insertion
order, with every field unchanged. -/
theorem ModelInfo_roundtrip (name : String) (mps : List ModelParam)
    (bps : List BlockParam) (sigs : List Signal) :
    (ModelInfo.construct name mps bps sigs).model_name = name ∧
    (ModelInfo.construct name mps bps sigs).model_params = mps ∧
    (ModelInfo.construct name mps bps sigs).block_params = bps ∧
    (ModelInfo.construct name mps bps sigs).signals = sigs ∧
    (∀ i, (ModelInfo.construct name mps bps sigs).model_params.get? i = mps.get? i) ∧
    (∀ i, (ModelInfo.construct name mps bps sigs).block_params.get? i = bps.get? i) ∧
    (∀ i, (ModelInfo.construct name mps bps sigs).signals.get? i = sigs.get? i) :=
  ⟨rfl, rfl, rfl, rfl, fun _ => rfl, fun _ => rfl, fun _ => rfl⟩

/-- C7: the equality, hash and ordering operations on both key types are
total functions into their result types: on every pair of keys each
comparison returns one of the two boolean values and each hash returns a
value, with no other outcome. -/
theorem key_ops_total :
    (∀ k1 k2 : map_key_1s, map_key_1s.eq k1 k2 = true ∨ map_key_1s.eq k1 k2 = false) ∧
    (∀ k1 k2 : map_key_2s, map_key_2s.eq k1 k2 = true ∨ map_key_2s.eq k1 k2 = false) ∧
    (∀ k : map_key_1s, ∃ n : Nat, pair_hash_1s k = n) ∧
    (∀ k : map_key_2s, ∃ n : Nat, pair_hash_2s k = n) ∧
    (∀ k1 k2 : map_key_1s, Compare_1s k1 k2 = true ∨ Compare_1s k1 k2 = false) ∧
    (∀ k1 k2 : map_key_2s, Compare_2s k1 k2 = true ∨ Compare_2s k1 k2 = false) :=
  ⟨fun _ _ => Bool.eq_false_or_eq_true _,
   fun _ _ => Bool.eq_false_or_eq_true _,
   fun k => ⟨pair_hash_1s k, rfl⟩,
   fun k => ⟨pair_hash_2s k, rfl⟩,
   fun _ _ => Bool.eq_false_or_eq_true _,
   fun _ _ => Bool.eq_false_or_eq_true _⟩

/-- C8 as stated fails: the `DataType` aggregate places no constraint at
all between `dims` and `orientation`, so there is no per-orientation
required dims length that every constructible value meets; two values with
identical scalar orientation but dims lengths 0 and 1 are both
constructible. -/
theorem DataType_dims_unconstrained :
    ¬ ∃ req : rtwCAPI_Orientation → Nat,
        ∀ d : DataType, d.dims.length = req d.orientation := by
  rintro ⟨req, h⟩
  have h0 := h ⟨"double", "np.double", [], .rtwCAPI_SCALAR⟩
  have h1 := h ⟨"double", "np.double", [1], .rtwCAPI_SCALAR⟩
  simp only [List.length_nil, List.length_cons] at h0 h1
  omega

/-- C8 (amended): the struct itself does not enforce the dims/orientation
invariant; it is preserved through aggregation — for any consistency
predicate, if every supplied `DataType` satisfies it, then so does every
`DataType` reachable through `ModelParam`, `BlockParam`, `Signal` and
`ModelInfo`. -/
theorem DataType_dims_invariant_preserved (P : DataType → Prop) (m : ModelInfo)
    (hm : ∀ p ∈ m.model_params, P p.data_type)
    (hb : ∀ p ∈ m.block_params, P p.data_type)
    (hs : ∀ p ∈ m.signals, P p.data_type) :
    ∀ d ∈ m.reachableDataTypes, P d := by
  intro d hd
  simp only [ModelInfo.reachableDataTypes, List.mem_append, List.mem_map] at hd
  rcases hd with (⟨p, hp, rfl⟩ | ⟨p, hp, rfl⟩) | ⟨p, hp, rfl⟩
  · exact hm p hp
  · exact hb p hp
  · exact hs p hp

/-- Witness for the amended C8: a concrete `ModelInfo` whose one signal
carries a scalar `DataType` with dims `[1, 1]`, instantiated with the
predicate that dims has length 2. -/
theorem DataType_dims_invariant_preserved_witness :
    (⟨"double", "np.double", [1, 1], .rtwCAPI_SCALAR⟩ : DataType).dims.length = 2 :=
  DataType_dims_invariant_preserved (fun d => d.dims.length = 2)
    (ModelInfo.construct "model" [] []
      [⟨"blk", "sig", ⟨"double", "np.double", [1, 1], .rtwCAPI_SCALAR⟩⟩])
    (by simp [ModelInfo.construct]) (by simp [ModelInfo.construct])
    (by simp [ModelInfo.construct])
    ⟨"double", "np.double", [1, 1], .rtwCAPI_SCALAR⟩
    (by simp [ModelInfo.construct, ModelInfo.reachableDataTypes])

/-- C9: `operator==` on each key type is an equivalence relation:
reflexive, symmetric and transitive. -/
theorem key_eq_equivalence :
    ((∀ k : map_key_1s, map_key_1s.eq k k = true) ∧
     (∀ k1 k2 : map_key_1s, map_key_1s.eq k1 k2 = true → map_key_1s.eq k2 k1 = true) ∧
     (∀ k1 k2 k3 : map_key_1s, map_key_1s.eq k1 k2 = true → map_key_1s.eq k2 k3 = true →
        map_key_1s.eq k1 k3 = true)) ∧
    ((∀ k : map_key_2s, map_key_2s.eq k k = true) ∧
     (∀ k1 k2 : map_key_2s, map_key_2s.eq k1 k2 = true → map_key_2s.eq k2 k1 = true) ∧
     (∀ k1 k2 k3 : map_key_2s, map_key_2s.eq k1 k2 = true → map_key_2s.eq k2 k3 = true →
        map_key_2s.eq k1 k3 = true)) := by
  refine ⟨⟨?_, ?_, ?_⟩, ⟨?_, ?_, ?_⟩⟩
  · intro k
    exact (map_key_1s_eq_iff k k).mpr ⟨rfl, rfl⟩
  · intro k1 k2 h
    obtain ⟨hc, ha⟩ := (map_key_1s_eq_iff k1 k2).mp h
    exact (map_key_1s_eq_iff k2 k1).mpr ⟨hc.symm, ha.symm⟩
  · intro k1 k2 k3 h1 h2
    obtain ⟨hc1, ha1⟩ := (map_key_1s_eq_iff k1 k2).mp h1
    obtain ⟨hc2, ha2⟩ := (map_key_1s_eq_iff k2 k3).mp h2
    exact (map_key_1s_eq_iff k1 k3).mpr ⟨hc1.trans hc2, ha1.trans ha2⟩
  · intro k
    exact (map_key_2s_eq_iff k k).mpr ⟨rfl, rfl, rfl⟩
  · intro k1 k2 h
    obtain ⟨hc, ha, hb⟩ := (map_key_2s_eq_iff k1 k2).mp h
    exact (map_key_2s_eq_iff k2 k1).mpr ⟨hc.symm, ha.symm, hb.symm⟩
  · intro k1 k2 k3 h1 h2
    obtain ⟨hc1, ha1, hb1⟩ := (map_key_2s_eq_iff k1 k2).mp h1
    obtain ⟨hc2, ha2, hb2⟩ := (map_key_2s_eq_iff k2 k3).mp h2
    exact (map_key_2s_eq_iff k1 k3).mpr ⟨hc1.trans hc2, ha1.trans ha2, hb1.trans hb2⟩

/-- Witness for C9: symmetry applied to concrete equal keys of each type. -/
theorem key_eq_equivalence_witness :
    map_key_1s.eq ⟨"sig", 3⟩ ⟨"sig", 3⟩ = true ∧
    map_key_2s.eq ⟨"blk", "prm", 3⟩ ⟨"blk", "prm", 3⟩ = true :=
  ⟨key_eq_equivalence.1.2.1 ⟨"sig", 3⟩ ⟨"sig", 3⟩ (by decide),
   key_eq_equivalence.2.2.1 ⟨"blk", "prm", 3⟩ ⟨"blk", "prm", 3⟩ (by decide)⟩

/-- C10: evaluating `operator==` leaves both operands unchanged — the
state-passing embedding returns both operands exactly as supplied, along
with the same result as the pure comparison. -/
theorem key_eq_frame :
    (∀ self other : map_key_1s,
      (map_key_1s.eqCall self other).2.1 = self ∧
      (map_key_1s.eqCall self other).2.2 = other ∧
      (map_key_1s.eqCall self other).1 = map_key_1s.eq self other) ∧
    (∀ self other : map_key_2s,
      (map_key_2s.eqCall self other).2.1 = self ∧
      (map_key_2s.eqCall self other).2.2 = other ∧
      (map_key_2s.eqCall self other).1 = map_key_2s.eq self other) := by
  constructor
  · intro self other
    unfold map_key_1s.eqCall map_key_1s.eq
    split <;> exact ⟨rfl, rfl, rfl⟩
  · intro self other
    unfold map_key_2s.eqCall map_key_2s.eq
    split <;> exact ⟨rfl, rfl, rfl⟩

end PYSIMLINK
